import Mathlib

/-!
A shallow embedding of PyPlug (`src/pyplug/pyplug.py`).

The library exposes a `Socket` (the hub) and `Plug`s (the modules).  A
socket keeps a priority-keyed registry `_connections` of attached plugs
and a flattened cache `_compiled_connections`; attribute reads and writes
on the socket are routed to the plugs whose `_supplies` mapping contains
the requested name.

Plug objects are mutable and shared (the socket holds references), so the
embedding keeps them in an ambient heap addressed by identity (`Nat`),
with the socket's own two fields stored alongside.  Plug attribute values
are drawn from an arbitrary type `V`.  Python exceptions become an
`Except` result: the `ValueError` raised by `_find_supplies` and the
`AttributeError` raised by `getattr` on a plug lacking the requested
attribute.  The lifecycle hooks `connected` / `disconnected` are arbitrary
user code, embedded as an explicit state-transforming parameter whose
default (`pass`) is the identity.
-/

namespace PyPlug

/-- State of one plug: the `socket` back-reference set by `Socket.connect`
(it is `None` at construction, and points to the one socket of the model
once attached), the `_supplies` dict mapping external alias to internal
attribute name, and the plug's ordinary instance attributes. -/
structure Plug (V : Type) where
  socket : Option Unit
  supplies : List (String × String)
  attrs : List (String × V)

/-- A fresh plug, as built by `Plug.__init__`: no socket, empty supplies.
The internal attributes the plug will expose start out absent. -/
def Plug.init {V : Type} : Plug V :=
  { socket := none, supplies := [], attrs := [] }

/-- Python dict assignment `d[k] = v`: overwrite in place when the key is
present (insertion position kept), otherwise append at the end. -/
def dictSet {κ α : Type} [DecidableEq κ] : List (κ × α) → κ → α → List (κ × α)
  | [], k, v => [(k, v)]
  | (k', v') :: t, k, v =>
    if k' = k then (k, v) :: t else (k', v') :: dictSet t k v

/-- Python dict lookup: `d[k]` when `k in d`, `None` otherwise (keys of the
embedded dicts are unique, so the first match is the only one). -/
def dictGet {κ α : Type} [DecidableEq κ] : List (κ × α) → κ → Option α
  | [], _ => none
  | (k', v') :: t, k => if k' = k then some v' else dictGet t k

/-- Embeds `self._connections[priority].append(plug)` on a
`defaultdict(list)`: append to the existing bucket, or create a fresh
bucket at the end of the dict when the priority key is absent. -/
def bucketAppend : List (Int × List Nat) → Int → Nat → List (Int × List Nat)
  | [], k, pid => [(k, [pid])]
  | (k', b) :: t, k, pid =>
    if k' = k then (k', b ++ [pid]) :: t else (k', b) :: bucketAppend t k pid

/-- Embeds `Socket._compile_connections`: flatten the priority dict into a
single list, iterating the buckets in ascending priority order
(`sorted(self._connections.items())` is a stable sort, embedded as a
stable structural sort; the keys are unique, so sorting the items only
compares priorities). -/
def compileConnections (conns : List (Int × List Nat)) : List Nat :=
  ((conns.insertionSort fun a b => a.1 ≤ b.1).map Prod.snd).flatten

/-- Whole-program state: the socket's `_connections` and
`_compiled_connections` fields plus the heap of plugs. -/
structure Sys (V : Type) where
  connections : List (Int × List Nat)
  compiled : List Nat
  plugs : Nat → Plug V

/-- A freshly constructed socket (`Socket.__init__`) over a heap of fresh
plugs. -/
def Sys.empty (V : Type) : Sys V :=
  { connections := [], compiled := [], plugs := fun _ => Plug.init }

/-- Update one plug of the heap in place. -/
def Sys.updatePlug {V : Type} (st : Sys V) (pid : Nat) (f : Plug V → Plug V) : Sys V :=
  { st with plugs := fun i => if i = pid then f (st.plugs i) else st.plugs i }

/-- Errors the routing layer can raise: the `ValueError` thrown by
`Socket._find_supplies` when no connection supplies the name, and Python's
`AttributeError` from `getattr` on a plug lacking the internal attribute. -/
inductive Err where
  | notSupplied (name : String)
  | attributeError (name : String)
deriving DecidableEq

/-- Embeds the yielding part of `Socket._find_supplies`: the pairs
`(connection, connection._supplies[name])` produced while scanning
`_compiled_connections`.  The trailing `raise ValueError` fires exactly
when this list is empty; it is folded into the two callers below. -/
def Sys.findSupplies {V : Type} (st : Sys V) (name : String) : List (Nat × String) :=
  st.compiled.filterMap fun pid =>
    (dictGet (st.plugs pid).supplies name).map fun attr => (pid, attr)

/-- The loop of `Socket.__getattr__`: run `result = getattr(connection,
attr)` for each yielded pair, threading the heap state (plug attribute
reads do not mutate it); a plug lacking the internal attribute raises
`AttributeError`. -/
def getattrLoop {V : Type} : List (Nat × String) → Option V → Sys V → Except Err (Option V × Sys V)
  | [], res, st => .ok (res, st)
  | (pid, attr) :: rest, _, st =>
    match dictGet (st.plugs pid).attrs attr with
    | none => .error (.attributeError attr)
    | some v => getattrLoop rest (some v) st

/-- Embeds `Socket.__getattr__`: scan every supplier of `name`, keeping
the value from the last one; `ValueError` when no plug supplies `name`
(initial `result = None` is the `none` accumulator). -/
def Sys.getattr {V : Type} (st : Sys V) (name : String) : Except Err (Option V × Sys V) :=
  if (st.findSupplies name).isEmpty then .error (.notSupplied name)
  else getattrLoop (st.findSupplies name) none st

/-- Embeds `setattr(connection, attr, value)` on a plug: a plain
instance-dict write, never failing. -/
def Sys.setPlugAttr {V : Type} (st : Sys V) (pid : Nat) (attr : String) (v : V) : Sys V :=
  st.updatePlug pid fun p => { p with attrs := dictSet p.attrs attr v }

/-- Embeds `Socket.__setattr__`: write `value` through every supplier of
`name`; the shared `_find_supplies` generator raises `ValueError` when no
plug supplies `name`, before any write happens. -/
def Sys.setattr {V : Type} (st : Sys V) (name : String) (v : V) : Except Err (Sys V) :=
  if (st.findSupplies name).isEmpty then .error (.notSupplied name)
  else .ok ((st.findSupplies name).foldl (fun s pa => s.setPlugAttr pa.1 pa.2 v) st)

/-- Embeds `Socket.connect(plug, priority=0)` with the plug's `connected`
hook passed explicitly (default `pass` is `id`): set the back-reference,
append to the priority bucket, recompile, then invoke the hook. -/
def Sys.connectWith {V : Type} (hook : Sys V → Sys V) (st : Sys V) (pid : Nat)
    (priority : Int) : Sys V :=
  let st1 := st.updatePlug pid fun p => { p with socket := some () }
  let st2 := { st1 with connections := bucketAppend st1.connections priority pid }
  let st3 := { st2 with compiled := compileConnections st2.connections }
  hook st3

/-- `Socket.connect` with the default no-op `connected` hook. -/
def Sys.connect {V : Type} (st : Sys V) (pid : Nat) (priority : Int) : Sys V :=
  st.connectWith id pid priority

/-- Embeds `Socket.disconnect(plug)` with the plug's `disconnected` hook
passed explicitly: invoke the hook first, then remove every occurrence of
the plug from every priority bucket (the `while True: remove` loop;
buckets and their keys remain, possibly empty), then recompile. -/
def Sys.disconnectWith {V : Type} (hook : Sys V → Sys V) (st : Sys V) (pid : Nat) : Sys V :=
  let st1 := hook st
  let conns := st1.connections.map fun kb => (kb.1, kb.2.filter fun q => decide (q ≠ pid))
  { st1 with connections := conns, compiled := compileConnections conns }

/-- `Socket.disconnect` with the default no-op `disconnected` hook. -/
def Sys.disconnect {V : Type} (st : Sys V) (pid : Nat) : Sys V :=
  st.disconnectWith id pid

/-- The attachment proper: the first three steps of `Socket.connect`
(back-reference, bucket append, recompile), i.e. the state the `connected`
hook observes.  Written out independently of `Sys.connectWith`. -/
def Sys.attachCore {V : Type} (st : Sys V) (pid : Nat) (priority : Int) : Sys V :=
  let stA := { st with plugs := fun i => if i = pid then { st.plugs i with socket := some () } else st.plugs i }
  let conns := bucketAppend stA.connections priority pid
  { stA with connections := conns, compiled := compileConnections conns }

/-- The removal phase of `Socket.disconnect` (everything after the
`disconnected` hook returns): drop every occurrence of the plug from every
bucket and recompile.  Written out independently of `Sys.disconnectWith`. -/
def Sys.removeCompile {V : Type} (st : Sys V) (pid : Nat) : Sys V :=
  let conns := st.connections.map fun kb => (kb.1, kb.2.filter fun q => decide (q ≠ pid))
  { st with connections := conns, compiled := compileConnections conns }

/-- The `if not alias: alias = name` default of `Plug.supply`: `None` and
the empty string (both falsy) fall back to the internal name itself. -/
def effAlias (name : String) : Option String → String
  | none => name
  | some a => if a = "" then name else a

/-- Embeds `Plug.supply(name, alias=None)`: register the plug's internal
attribute `name` in `_supplies` under the external alias. -/
def Plug.supply {V : Type} (p : Plug V) (name : String) (alias? : Option String) : Plug V :=
  { p with supplies := dictSet p.supplies (effAlias name alias?) name }

/-- Invariant tying the cache to the registry: `_compiled_connections` is
exactly the flattening of the current `_connections`. -/
def Sys.Compiled {V : Type} (st : Sys V) : Prop :=
  st.compiled = compileConnections st.connections

/-! Concrete fixtures: small states exercising the embedding on the
scenarios the specification names — two plugs supplying the same name at
distinct or equal priorities, a plug supplying under an alias, and
duplicate attachment of one plug. -/

/-- A plug that runs `self.supply('x')` and sets `self.x = v`. -/
def plugX {V : Type} (v : V) : Plug V :=
  { (Plug.init.supply "x" none : Plug V) with attrs := dictSet [] "x" v }

/-- A socket fresh out of `Socket.__init__` over a given heap of plugs. -/
def sysOf {V : Type} (f : Nat → Plug V) : Sys V :=
  { connections := [], compiled := [], plugs := f }

/-- Heap holding plug `p` at identity 0 and `q` at identity 1. -/
def heap2 {V : Type} (p q : Plug V) : Nat → Plug V :=
  fun i => if i = 0 then p else if i = 1 then q else Plug.init

/-- Heap holding just plug `p`, at identity 0. -/
def heap1 {V : Type} (p : Plug V) : Nat → Plug V :=
  fun i => if i = 0 then p else Plug.init

/-- A plug that runs `self.supply('x')` but never assigns the attribute
`x` on itself. -/
def plugXBare {V : Type} : Plug V :=
  Plug.init.supply "x" none

/-- The bare-supplier plug attached to a fresh socket. -/
def stBare : Sys Int :=
  (sysOf (heap1 plugXBare)).connect 0 0

/-- One plug supplying `x`, attached twice: at priority 0 and again at
priority 1. -/
def stDup : Sys Int :=
  ((sysOf (heap1 (plugX 7))).connect 0 0).connect 0 1

/-- A plug that runs `self.supply('hp', alias='health')` and sets
`self.hp = v`. -/
def plugHp {V : Type} (v : V) : Plug V :=
  { (Plug.init.supply "hp" (some "health") : Plug V) with attrs := dictSet [] "hp" v }

/-- The aliasing plug attached to a fresh socket. -/
def stHp {V : Type} (v : V) : Sys V :=
  (sysOf (heap1 (plugHp v))).connect 0 0

/-- The aliasing plug after additionally running `self.supply('hp')`,
attached to a fresh socket. -/
def stHpBoth {V : Type} (v : V) : Sys V :=
  (sysOf (heap1 ((plugHp v).supply "hp" none))).connect 0 0

/-- Plug A (value `a`, priority 0) attached first, then plug B (value `b`,
priority 1), both supplying `x`. -/
def stAB {V : Type} (a b : V) : Sys V :=
  ((sysOf (heap2 (plugX a) (plugX b))).connect 0 0).connect 1 1

/-- Plug B (value `b`, priority 1) attached first, then plug A (value `a`,
priority 0), both supplying `x`. -/
def stBA {V : Type} (a b : V) : Sys V :=
  ((sysOf (heap2 (plugX a) (plugX b))).connect 1 1).connect 0 0

/-- Plugs A then B attached in that order, both at priority 0, both
supplying `x`. -/
def stSame {V : Type} (a b : V) : Sys V :=
  ((sysOf (heap2 (plugX a) (plugX b))).connect 0 0).connect 1 0

/-! Lemmas about the embedded Python dictionaries. -/

theorem dictGet_dictSet_same {κ α : Type} [DecidableEq κ] (l : List (κ × α)) (k : κ) (v : α) :
    dictGet (dictSet l k v) k = some v := by
  induction l with
  | nil => simp [dictSet, dictGet]
  | cons hd t ih =>
    obtain ⟨k', v'⟩ := hd
    by_cases hk : k' = k <;> simp [dictSet, dictGet, hk, ih]

theorem dictGet_dictSet_other {κ α : Type} [DecidableEq κ] (l : List (κ × α)) (k k' : κ)
    (v : α) (hne : k' ≠ k) : dictGet (dictSet l k v) k' = dictGet l k' := by
  induction l with
  | nil => simp [dictSet, dictGet, Ne.symm hne]
  | cons hd t ih =>
    obtain ⟨k₀, v₀⟩ := hd
    by_cases hk : k₀ = k
    · subst hk
      simp [dictSet, dictGet, Ne.symm hne]
    · simp only [dictSet, if_neg hk]
      by_cases hk' : k₀ = k' <;> simp [dictGet, hk', ih]

/-! Lemmas about the read loop. -/

theorem getattrLoop_state {V : Type} (ms : List (Nat × String)) (res : Option V) (st : Sys V)
    (r : Option V) (st' : Sys V) (h : getattrLoop ms res st = .ok (r, st')) : st' = st := by
  induction ms generalizing res with
  | nil =>
    simp only [getattrLoop, Except.ok.injEq, Prod.mk.injEq] at h
    exact h.2.symm
  | cons hd rest ih =>
    obtain ⟨pid, attr⟩ := hd
    simp only [getattrLoop] at h
    cases hd : dictGet (st.plugs pid).attrs attr with
    | none => rw [hd] at h; cases h
    | some v => rw [hd] at h; exact ih (some v) h

theorem getattrLoop_not_notSupplied {V : Type} (ms : List (Nat × String)) (res : Option V)
    (st : Sys V) (n : String) : getattrLoop ms res st ≠ .error (.notSupplied n) := by
  induction ms generalizing res with
  | nil => simp [getattrLoop]
  | cons hd rest ih =>
    obtain ⟨pid, attr⟩ := hd
    simp only [getattrLoop]
    cases hd : dictGet (st.plugs pid).attrs attr with
    | none => simp
    | some v => exact ih (some v)

theorem getattrLoop_last {V : Type} (st : Sys V) (l : List (Nat × String)) (pid : Nat)
    (attr : String) (v : V)
    (hall : ∀ pa ∈ l, (dictGet (st.plugs pa.1).attrs pa.2).isSome = true)
    (hlast : dictGet (st.plugs pid).attrs attr = some v) :
    ∀ res : Option V, getattrLoop (l ++ [(pid, attr)]) res st = .ok (some v, st) := by
  induction l with
  | nil =>
    intro res
    simp [getattrLoop, hlast]
  | cons hd t ih =>
    obtain ⟨q, b⟩ := hd
    intro res
    have hq : (dictGet (st.plugs q).attrs b).isSome = true := hall (q, b) (by simp)
    obtain ⟨w, hw⟩ := Option.isSome_iff_exists.mp hq
    simp only [List.cons_append, getattrLoop, hw]
    exact ih (fun pa hpa => hall pa (List.mem_cons_of_mem _ hpa)) (some w)

/-! Lemmas about the write fan-out. -/

theorem setPlugAttr_connections {V : Type} (st : Sys V) (pid : Nat) (attr : String) (v : V) :
    (st.setPlugAttr pid attr v).connections = st.connections := rfl

theorem setPlugAttr_compiled {V : Type} (st : Sys V) (pid : Nat) (attr : String) (v : V) :
    (st.setPlugAttr pid attr v).compiled = st.compiled := rfl

theorem setPlugAttr_supplies {V : Type} (st : Sys V) (pid q : Nat) (attr : String) (v : V) :
    ((st.setPlugAttr pid attr v).plugs q).supplies = (st.plugs q).supplies := by
  simp only [Sys.setPlugAttr, Sys.updatePlug]
  by_cases h : q = pid <;> simp [h]

theorem setPlugAttr_socket {V : Type} (st : Sys V) (pid q : Nat) (attr : String) (v : V) :
    ((st.setPlugAttr pid attr v).plugs q).socket = (st.plugs q).socket := by
  simp only [Sys.setPlugAttr, Sys.updatePlug]
  by_cases h : q = pid <;> simp [h]

theorem foldlSet_connections {V : Type} (ms : List (Nat × String)) (v : V) :
    ∀ st : Sys V,
      (ms.foldl (fun s pa => s.setPlugAttr pa.1 pa.2 v) st).connections = st.connections := by
  induction ms with
  | nil => intro st; rfl
  | cons hd t ih => intro st; rw [List.foldl_cons, ih, setPlugAttr_connections]

theorem foldlSet_compiled {V : Type} (ms : List (Nat × String)) (v : V) :
    ∀ st : Sys V,
      (ms.foldl (fun s pa => s.setPlugAttr pa.1 pa.2 v) st).compiled = st.compiled := by
  induction ms with
  | nil => intro st; rfl
  | cons hd t ih => intro st; rw [List.foldl_cons, ih, setPlugAttr_compiled]

theorem foldlSet_supplies {V : Type} (ms : List (Nat × String)) (v : V) :
    ∀ (st : Sys V) (q : Nat),
      ((ms.foldl (fun s pa => s.setPlugAttr pa.1 pa.2 v) st).plugs q).supplies
        = (st.plugs q).supplies := by
  induction ms with
  | nil => intro st q; rfl
  | cons hd t ih => intro st q; rw [List.foldl_cons, ih, setPlugAttr_supplies]

theorem foldlSet_socket {V : Type} (ms : List (Nat × String)) (v : V) :
    ∀ (st : Sys V) (q : Nat),
      ((ms.foldl (fun s pa => s.setPlugAttr pa.1 pa.2 v) st).plugs q).socket
        = (st.plugs q).socket := by
  induction ms with
  | nil => intro st q; rfl
  | cons hd t ih => intro st q; rw [List.foldl_cons, ih, setPlugAttr_socket]

theorem foldlSet_persist {V : Type} (ms : List (Nat × String)) (v : V) :
    ∀ (st : Sys V) (p : Nat) (a : String),
      dictGet (st.plugs p).attrs a = some v →
      dictGet (((ms.foldl (fun s pa => s.setPlugAttr pa.1 pa.2 v) st).plugs p).attrs) a
        = some v := by
  induction ms with
  | nil => intro st p a h; exact h
  | cons hd t ih =>
    intro st p a h
    rw [List.foldl_cons]
    apply ih
    simp only [Sys.setPlugAttr, Sys.updatePlug]
    by_cases hp : p = hd.1
    · subst hp
      rw [if_pos rfl]
      show dictGet (dictSet (st.plugs hd.1).attrs hd.2 v) a = some v
      by_cases ha : a = hd.2
      · subst ha
        exact dictGet_dictSet_same _ _ _
      · rw [dictGet_dictSet_other _ _ _ _ ha]
        exact h
    · rw [if_neg hp]
      exact h

theorem foldlSet_mem {V : Type} (ms : List (Nat × String)) (v : V) :
    ∀ (st : Sys V) (pa : Nat × String), pa ∈ ms →
      dictGet (((ms.foldl (fun s pa => s.setPlugAttr pa.1 pa.2 v) st).plugs pa.1).attrs) pa.2
        = some v := by
  induction ms with
  | nil => intro st pa h; cases h
  | cons hd t ih =>
    intro st pa h
    rw [List.foldl_cons]
    rcases List.mem_cons.mp h with heq | hmem
    · subst heq
      apply foldlSet_persist
      simp only [Sys.setPlugAttr, Sys.updatePlug, if_pos rfl]
      exact dictGet_dictSet_same _ _ _
    · exact ih _ pa hmem

/-! Lemmas about compilation and membership. -/

theorem mem_compileConnections {q : Nat} {l : List (Int × List Nat)} :
    q ∈ compileConnections l ↔ ∃ kb ∈ l, q ∈ kb.2 := by
  simp only [compileConnections, List.mem_flatten, List.mem_map, List.mem_insertionSort]
  constructor
  · rintro ⟨b, ⟨kb, hmem, rfl⟩, hq⟩
    exact ⟨kb, hmem, hq⟩
  · rintro ⟨kb, hmem, hq⟩
    exact ⟨kb.2, ⟨kb, hmem, rfl⟩, hq⟩

theorem bucketAppend_self (l : List (Int × List Nat)) (k : Int) (pid : Nat) :
    ∃ b, (k, b) ∈ bucketAppend l k pid ∧ pid ∈ b := by
  induction l with
  | nil => exact ⟨[pid], by simp [bucketAppend]⟩
  | cons hd t ih =>
    obtain ⟨k', b'⟩ := hd
    by_cases hk : k' = k
    · subst hk
      exact ⟨b' ++ [pid], by simp [bucketAppend]⟩
    · obtain ⟨b, hb, hpid⟩ := ih
      exact ⟨b, by simp [bucketAppend, hk, hb], hpid⟩

theorem findSupplies_eq_nil_iff {V : Type} (st : Sys V) (name : String) :
    st.findSupplies name = [] ↔
      ∀ pid ∈ st.compiled, dictGet (st.plugs pid).supplies name = none := by
  simp [Sys.findSupplies, List.filterMap_eq_nil_iff, Option.map_eq_none']

/-! The claims. -/

/-- C1: a read of a supplied name returns the value of the internal
attribute of the last matching plug in the compiled resolution order
(highest priority, then most recently attached); in particular, with A at
priority 0 and B at priority 1 both supplying `x`, reading `x` returns
B's value in either attach order, and at equal priorities the plug
attached last wins. -/
theorem read_returns_last_match {V : Type} :
    (∀ (st : Sys V) (name : String) (l : List (Nat × String)) (pid : Nat) (attr : String)
      (v : V),
      st.findSupplies name = l ++ [(pid, attr)] →
      (∀ pa ∈ l, (dictGet (st.plugs pa.1).attrs pa.2).isSome = true) →
      dictGet (st.plugs pid).attrs attr = some v →
      st.getattr name = .ok (some v, st)) ∧
    (∀ a b : V,
      (stAB a b).getattr "x" = .ok (some b, stAB a b) ∧
      (stBA a b).getattr "x" = .ok (some b, stBA a b)) ∧
    (∀ a b : V, (stSame a b).getattr "x" = .ok (some b, stSame a b)) := by
  refine ⟨?_, fun a b => ⟨rfl, rfl⟩, fun a b => rfl⟩
  intro st name l pid attr v hfind hall hlast
  unfold Sys.getattr
  rw [hfind, if_neg (by simp)]
  exact getattrLoop_last st l pid attr v hall hlast none

/-- Witness for C1: with A (value 1, priority 0) and B (value 2,
priority 1) both supplying `x`, the last match is plug 1 and the read
returns 2. -/
theorem read_returns_last_match_w :
    (stAB (1 : Int) 2).getattr "x" = .ok (some 2, stAB 1 2) :=
  read_returns_last_match.1 (stAB 1 2) "x" [(0, "x")] 1 "x" 2 rfl (by decide) rfl

/-- C2 counterexample: on a fresh socket (zero attached plugs) a write to
`z` raises the `ValueError` coming from `_find_supplies` — it is not a
silent no-op. -/
theorem write_unsupplied_raises_cex :
    (Sys.empty Int).setattr "z" 5 = .error (.notSupplied "z") := rfl

/-- C2 amended: a write to a name no attached plug supplies raises the
unsupplied-name `ValueError` (the same error as the read path, produced
by the shared `_find_supplies` generator), and no plug write happens. -/
theorem write_unsupplied_raises {V : Type} (st : Sys V) (name : String) (v : V)
    (h : st.findSupplies name = []) :
    st.setattr name v = .error (.notSupplied name) := by
  simp [Sys.setattr, h]

/-- Witness for the amended C2 at a fresh socket. -/
theorem write_unsupplied_raises_w :
    (Sys.empty Int).setattr "zz" 7 = .error (.notSupplied "zz") :=
  write_unsupplied_raises (Sys.empty Int) "zz" 7 rfl

/-- C3 counterexample: plug 0 supplies `x` (one module matches), but it
never assigned the internal attribute; the read does not succeed — it
raises `AttributeError` rather than returning a value. -/
theorem read_supplied_missing_attr_cex :
    stBare.findSupplies "x" = [(0, "x")] ∧
      stBare.getattr "x" = .error (.attributeError "x") :=
  ⟨rfl, rfl⟩

/-- C3 amended: a read raises the unsupplied-name `ValueError` exactly
when zero attached plugs have the name in their supply map; otherwise
that error is not raised (though the read can still fail with
`AttributeError` when a matching plug lacks its internal attribute). -/
theorem read_notSupplied_iff {V : Type} (st : Sys V) (name : String) :
    st.getattr name = .error (.notSupplied name) ↔
      ∀ pid ∈ st.compiled, dictGet (st.plugs pid).supplies name = none := by
  rw [← findSupplies_eq_nil_iff]
  constructor
  · intro h
    by_contra hne
    have hisE : (st.findSupplies name).isEmpty = false := by
      cases hfs : st.findSupplies name with
      | nil => exact absurd hfs hne
      | cons a t => rfl
    unfold Sys.getattr at h
    rw [hisE] at h
    simp only [Bool.false_eq_true, if_false] at h
    exact getattrLoop_not_notSupplied _ _ _ _ h
  · intro h
    simp [Sys.getattr, h]

/-- Witness for the amended C3 at a fresh socket. -/
theorem read_notSupplied_iff_w :
    (Sys.empty Int).getattr "z" = .error (.notSupplied "z") :=
  (read_notSupplied_iff (Sys.empty Int) "z").mpr (by simp [Sys.empty])

/-- C4: a write to a supplied name succeeds and stores the value into the
internal attribute of every matching plug — all matches, regardless of
priority, not only the plug that wins on read — leaving the registry, the
compiled order, and every plug's supply map and back-reference
unchanged. -/
theorem write_fans_out {V : Type} (st : Sys V) (name : String) (v : V)
    (h : st.findSupplies name ≠ []) :
    ∃ st', st.setattr name v = .ok st' ∧
      (∀ pa ∈ st.findSupplies name, dictGet (st'.plugs pa.1).attrs pa.2 = some v) ∧
      st'.connections = st.connections ∧ st'.compiled = st.compiled ∧
      (∀ q : Nat, (st'.plugs q).supplies = (st.plugs q).supplies ∧
        (st'.plugs q).socket = (st.plugs q).socket) := by
  have hisE : (st.findSupplies name).isEmpty = false := by
    cases hfs : st.findSupplies name with
    | nil => exact absurd hfs h
    | cons a t => rfl
  refine ⟨(st.findSupplies name).foldl (fun s pa => s.setPlugAttr pa.1 pa.2 v) st,
    ?_, ?_, ?_, ?_, ?_⟩
  · simp [Sys.setattr, hisE]
  · intro pa hpa
    exact foldlSet_mem _ v st pa hpa
  · exact foldlSet_connections _ v st
  · exact foldlSet_compiled _ v st
  · intro q
    exact ⟨foldlSet_supplies _ v st q, foldlSet_socket _ v st q⟩

/-- Witness for C4: plugs 0 and 1 both supply `x`; after writing 5
through the socket both internal attributes read back 5. -/
theorem write_fans_out_w :
    ∃ st', (stSame (1 : Int) 2).setattr "x" 5 = .ok st' ∧
      dictGet ((st'.plugs 0).attrs) "x" = some 5 ∧
      dictGet ((st'.plugs 1).attrs) "x" = some 5 := by
  obtain ⟨st', h1, h2, -⟩ := write_fans_out (stSame (1 : Int) 2) "x" 5 (by decide)
  exact ⟨st', h1, h2 (0, "x") (by decide), h2 (1, "x") (by decide)⟩

/-- C5: after an attach whose hook preserves the cache invariant (the
default no-op hook does) and after a detach with any hook, the compiled
cache equals the registry flattened; and the flattening arranges the
registry's priority buckets in ascending priority order (a sorted
permutation of the items) and concatenates them in that order. -/
theorem compiled_cache_consistent {V : Type} :
    (∀ (hook : Sys V → Sys V) (st : Sys V) (pid : Nat) (priority : Int),
      (∀ s : Sys V, s.Compiled → (hook s).Compiled) →
      (st.connectWith hook pid priority).Compiled) ∧
    (∀ (hook : Sys V → Sys V) (st : Sys V) (pid : Nat),
      (st.disconnectWith hook pid).Compiled) ∧
    (∀ l : List (Int × List Nat), ∃ l' : List (Int × List Nat),
      l'.Perm l ∧ l'.Pairwise (fun a b => a.1 ≤ b.1) ∧
      compileConnections l = (l'.map Prod.snd).flatten) := by
  refine ⟨?_, fun hook st pid => rfl, ?_⟩
  · intro hook st pid priority hpres
    exact hpres _ rfl
  · intro l
    refine ⟨l.insertionSort (fun a b => a.1 ≤ b.1), List.perm_insertionSort _ _, ?_, rfl⟩
    haveI : IsTotal (Int × List Nat) (fun a b => a.1 ≤ b.1) := ⟨fun a b => le_total a.1 b.1⟩
    haveI : IsTrans (Int × List Nat) (fun a b => a.1 ≤ b.1) :=
      ⟨fun a b c h1 h2 => le_trans h1 h2⟩
    exact List.sorted_insertionSort _ l

/-- Witness for C5: the identity hook preserves the invariant, and the
invariant holds after attaching plug 0 to a fresh socket. -/
theorem compiled_cache_consistent_w :
    ((Sys.empty Int).connectWith id 0 0).Compiled :=
  compiled_cache_consistent.1 id (Sys.empty Int) 0 0 (fun _ hs => hs)

/-- C6: one detach removes every occurrence of the plug from every
priority bucket (whatever the hook does first), the plug is gone from the
recompiled resolution order, and a name that only the detached plug
supplied subsequently reads as unsupplied. -/
theorem detach_removes_all {V : Type} :
    (∀ (hook : Sys V → Sys V) (st : Sys V) (pid : Nat),
      ∀ kb ∈ (st.disconnectWith hook pid).connections, pid ∉ kb.2) ∧
    (∀ (hook : Sys V → Sys V) (st : Sys V) (pid : Nat),
      pid ∉ (st.disconnectWith hook pid).compiled) ∧
    (∀ (st : Sys V) (pid : Nat) (name : String),
      (∀ q : Nat, (∃ kb ∈ st.connections, q ∈ kb.2) → q ≠ pid →
        dictGet (st.plugs q).supplies name = none) →
      (st.disconnect pid).getattr name = .error (.notSupplied name)) := by
  refine ⟨?_, ?_, ?_⟩
  · intro hook st pid kb hkb
    simp only [Sys.disconnectWith] at hkb
    obtain ⟨⟨k, b⟩, hmem, rfl⟩ := List.mem_map.mp hkb
    simp [List.mem_filter]
  · intro hook st pid hmem
    obtain ⟨kb, hkb, hpid⟩ := mem_compileConnections.mp hmem
    obtain ⟨⟨k, b⟩, hmemb, rfl⟩ := List.mem_map.mp hkb
    simp at hpid
  · intro st pid name hsupp
    have hnil : (st.disconnect pid).findSupplies name = [] := by
      rw [findSupplies_eq_nil_iff]
      intro q hq
      obtain ⟨kb, hkb, hqkb⟩ := mem_compileConnections.mp hq
      obtain ⟨⟨k, b⟩, hmemb, rfl⟩ := List.mem_map.mp hkb
      simp only [List.mem_filter, decide_eq_true_eq] at hqkb
      exact hsupp q ⟨(k, b), hmemb, hqkb.1⟩ hqkb.2
    simp [Sys.getattr, hnil]

/-- Witness for C6: plug 0 was attached twice (priorities 0 and 1) and is
the only supplier of `x`; after one detach the read of `x` raises the
unsupplied-name error. -/
theorem detach_removes_all_w :
    (stDup.disconnect 0).getattr "x" = .error (.notSupplied "x") := by
  apply detach_removes_all.2.2 stDup 0 "x"
  intro q hq hne
  exfalso
  apply hne
  obtain ⟨kb, hkb, hqkb⟩ := hq
  have hc : stDup.connections = [(0, [0]), (1, [0])] := rfl
  rw [hc] at hkb
  simp only [List.mem_cons, List.not_mem_nil, or_false] at hkb
  rcases hkb with h | h <;> (rw [h] at hqkb; simpa using hqkb)

/-- C7: the attach hook observes the state in which the back-reference is
set, the plug sits in its priority bucket, and the resolution order has
been recompiled — so the plug is fully attached and resolvable inside the
hook; the detach hook observes the untouched pre-removal state, with
removal and recompilation applied only to what the hook returns. -/
theorem hook_ordering {V : Type} :
    (∀ (hook : Sys V → Sys V) (st : Sys V) (pid : Nat) (priority : Int),
      st.connectWith hook pid priority = hook (st.attachCore pid priority)) ∧
    (∀ (st : Sys V) (pid : Nat) (priority : Int),
      ((st.attachCore pid priority).plugs pid).socket = some ()) ∧
    (∀ (st : Sys V) (pid : Nat) (priority : Int),
      pid ∈ (st.attachCore pid priority).compiled) ∧
    (∀ (st : Sys V) (pid : Nat) (priority : Int), (st.attachCore pid priority).Compiled) ∧
    (∀ (st : Sys V) (pid : Nat) (priority : Int) (name attr : String),
      dictGet ((st.attachCore pid priority).plugs pid).supplies name = some attr →
      (pid, attr) ∈ (st.attachCore pid priority).findSupplies name) ∧
    (∀ (hook : Sys V → Sys V) (st : Sys V) (pid : Nat),
      st.disconnectWith hook pid = (hook st).removeCompile pid) := by
  refine ⟨fun hook st pid priority => rfl, ?_, ?_, fun st pid priority => rfl, ?_,
    fun hook st pid => rfl⟩
  · intro st pid priority
    simp [Sys.attachCore]
  · intro st pid priority
    obtain ⟨b, hb, hpid⟩ := bucketAppend_self st.connections priority pid
    exact mem_compileConnections.mpr ⟨(priority, b), hb, hpid⟩
  · intro st pid priority name attr hs
    have hc : pid ∈ (st.attachCore pid priority).compiled := by
      obtain ⟨b, hb, hpid⟩ := bucketAppend_self st.connections priority pid
      exact mem_compileConnections.mpr ⟨(priority, b), hb, hpid⟩
    exact List.mem_filterMap.mpr ⟨pid, hc, by rw [hs]; rfl⟩

/-- Witness for C7: in the attached state the hook observes, plug 0's
supply of `x` resolves through the socket. -/
theorem hook_ordering_w :
    (0, "x") ∈ ((sysOf (heap1 (plugX (7 : Int)))).attachCore 0 0).findSupplies "x" :=
  hook_ordering.2.2.2.2.1 (sysOf (heap1 (plugX (7 : Int)))) 0 0 "x" "x" rfl

/-- C8: supplying under an alias makes the alias route to the plug's
internal attribute, for reads and writes alike, while the internal name
itself stays unaddressable on the socket unless it is also separately
supplied; in general a supplied alias of an attached plug resolves, and a
name no attached plug supplies raises the unsupplied-name error. -/
theorem alias_routes {V : Type} :
    (∀ v : V, (stHp v).getattr "health" = .ok (some v, stHp v)) ∧
    (∀ v : V, (stHp v).getattr "hp" = .error (.notSupplied "hp")) ∧
    (∀ v w : V, ∃ st', (stHp v).setattr "health" w = .ok st' ∧
      dictGet ((st'.plugs 0).attrs) "hp" = some w) ∧
    (∀ v : V, (stHpBoth v).getattr "hp" = .ok (some v, stHpBoth v)) ∧
    (∀ (st : Sys V) (pid : Nat) (al name : String),
      pid ∈ st.compiled → dictGet (st.plugs pid).supplies al = some name →
      (pid, name) ∈ st.findSupplies al) ∧
    (∀ (st : Sys V) (name : String),
      (∀ pid ∈ st.compiled, dictGet (st.plugs pid).supplies name = none) →
      st.getattr name = .error (.notSupplied name)) := by
  refine ⟨fun v => rfl, fun v => rfl, fun v w => ⟨_, rfl, rfl⟩, fun v => rfl, ?_, ?_⟩
  · intro st pid al name hc hs
    exact List.mem_filterMap.mpr ⟨pid, hc, by rw [hs]; rfl⟩
  · intro st name h
    have hnil : st.findSupplies name = [] := (findSupplies_eq_nil_iff st name).mpr h
    simp [Sys.getattr, hnil]

/-- Witness for C8: the aliased supply of plug 0 resolves `health` to its
internal `hp` attribute in the attached fixture. -/
theorem alias_routes_w :
    (0, "hp") ∈ (stHp (4 : Int)).findSupplies "health" :=
  alias_routes.2.2.2.2.1 (stHp 4) 0 "health" "hp" (by decide) rfl

/-- C9: one `supply` call touches only the plug's own supply map: it maps
the effective alias (the explicit alias, or the name itself when the
alias is absent or empty) to the internal name, overwriting any previous
target of that alias, and leaves every other alias, the plug's
attributes, and its back-reference unchanged; so repeated calls with an
equal alias leave the alias on the most recently supplied name. -/
theorem supply_accumulates {V : Type} (p : Plug V) (name : String) (alias? : Option String) :
    (p.supply name alias?).attrs = p.attrs ∧
    (p.supply name alias?).socket = p.socket ∧
    dictGet (p.supply name alias?).supplies (effAlias name alias?) = some name ∧
    (∀ a : String, a ≠ effAlias name alias? →
      dictGet (p.supply name alias?).supplies a = dictGet p.supplies a) ∧
    (∀ (n₂ a : String), a ≠ "" →
      dictGet ((p.supply name (some a)).supply n₂ (some a)).supplies a = some n₂) := by
  refine ⟨rfl, rfl, dictGet_dictSet_same _ _ _, ?_, ?_⟩
  · intro a ha
    exact dictGet_dictSet_other _ _ _ _ ha
  · intro n₂ a ha
    have : effAlias n₂ (some a) = a := by simp [effAlias, ha]
    rw [Plug.supply, this]
    exact dictGet_dictSet_same _ _ _

/-- Witness for C9: supplying `hp` as `health` leaves the unrelated alias
`mp` unchanged, and re-supplying the alias `health` with a new internal
name overwrites its target. -/
theorem supply_accumulates_w :
    dictGet ((Plug.init : Plug Int).supply "hp" (some "health")).supplies "mp"
      = dictGet (Plug.init : Plug Int).supplies "mp" :=
  (supply_accumulates (Plug.init : Plug Int) "hp" (some "health")).2.2.2.1 "mp" (by decide)

/-- C10: a successful read leaves the registry, the compiled resolution
order, and every plug's supply map and socket back-reference exactly as
they were — reads never mutate routing state. -/
theorem read_pure {V : Type} (st : Sys V) (name : String) (r : Option V) (st' : Sys V)
    (h : st.getattr name = .ok (r, st')) :
    st'.connections = st.connections ∧ st'.compiled = st.compiled ∧
    (∀ q : Nat, (st'.plugs q).supplies = (st.plugs q).supplies ∧
      (st'.plugs q).socket = (st.plugs q).socket) := by
  have hst : st' = st := by
    by_cases hE : (st.findSupplies name).isEmpty = true
    · unfold Sys.getattr at h
      rw [hE] at h
      simp at h
    · rw [Bool.not_eq_true] at hE
      unfold Sys.getattr at h
      rw [hE] at h
      simp only [Bool.false_eq_true, if_false] at h
      exact getattrLoop_state _ _ _ _ _ h
  subst hst
  exact ⟨rfl, rfl, fun q => ⟨rfl, rfl⟩⟩

/-- Witness for C10: the registry is unchanged by the successful read of
`health` on the aliasing fixture. -/
theorem read_pure_w :
    (stHp (3 : Int)).connections = (stHp 3).connections :=
  (read_pure (stHp 3) "health" (some 3) (stHp 3) rfl).1

end PyPlug
